import Mathlib

/-!
Verification development for the sight-ai libp2p-node-service repository.

The Go sources are embedded shallowly:
pure functions (`ToSightDID`, `DIDToPublicKey`, `randomNeighbors`, the
base58 codec from `mr-tron/base58` that they call) become executable Lean
functions on `List Nat` (bytes) and `List Char` (strings); effectful
functions (`GetPublicKeyByPeerId`, `ConnectByDIDOrMultiAddr`, the message
handlers) become pure step functions over an explicit environment record
that fixes the outcome of each external call (peerstore, DHT, connect,
HTTP sink), returning both the result and a trace of which external
effects were performed.
-/

set_option maxRecDepth 4000

/-! ## Byte and digit arithmetic

`natDigitsF` is a fuel-indexed, structurally recursive little-endian digit
expansion, and is proved equal to Mathlib's `Nat.digits` so that the
`ofDigits`/`digits` round-trip lemmas apply to it. -/

/-- Fuel-indexed little-endian base-`b` digits of `n` (fuel ≥ n suffices). -/
def natDigitsF (b : Nat) : Nat → Nat → List Nat
  | _, 0 => []
  | 0, _ + 1 => []
  | fuel + 1, n + 1 => (n + 1) % b :: natDigitsF b fuel ((n + 1) / b)

/-- Little-endian base-`b` digits of `n`, executable. -/
def natDigits (b n : Nat) : List Nat := natDigitsF b n n

theorem natDigitsF_eq_digits (b : Nat) (hb : 2 ≤ b) :
    ∀ fuel n, n ≤ fuel → natDigitsF b fuel n = Nat.digits b n := by
  intro fuel
  induction fuel with
  | zero =>
    intro n hn
    interval_cases n
    simp [natDigitsF]
  | succ f ih =>
    intro n hn
    match n with
    | 0 => simp [natDigitsF]
    | m + 1 =>
      rw [natDigitsF, Nat.digits_def' (by omega : 1 < b) (Nat.succ_pos m)]
      congr 1
      have h2 : (m + 1) / b < m + 1 := Nat.div_lt_self (by omega) (by omega)
      exact ih _ (by omega)

theorem natDigits_eq_digits (b n : Nat) (hb : 2 ≤ b) :
    natDigits b n = Nat.digits b n :=
  natDigitsF_eq_digits b hb n n (Nat.le_refl n)

/-- Big-endian byte list to natural number (value of the byte string). -/
def bytesToNat (l : List Nat) : Nat := Nat.ofDigits 256 l.reverse

/-- Natural number to minimal big-endian byte list. -/
def natToBytes (n : Nat) : List Nat := (natDigits 256 n).reverse

/-! ## Base58 codec (model of mr-tron/base58, Bitcoin alphabet)

`Encode` counts leading zero bytes, emits one `'1'` per zero byte, then the
big-endian base-58 digits of the value of the input. `Decode` rejects the
empty string and any character outside the alphabet, counts leading `'1'`
characters, and emits one zero byte per leading `'1'` followed by the
big-endian bytes of the accumulated value. -/

def b58Alphabet : List Char :=
  "123456789ABCDEFGHJKLMNPQRSTUVWXYZabcdefghijkmnopqrstuvwxyz".toList

/-- Index of `c` in a character list, starting the count at `i`. -/
def indexInAux (c : Char) : List Char → Nat → Option Nat
  | [], _ => none
  | a :: t, i => if a = c then some i else indexInAux c t (i + 1)

/-- Value of a base58 character, `none` if not in the alphabet. -/
def b58Index (c : Char) : Option Nat := indexInAux c b58Alphabet 0

/-- Number of leading zero bytes (the `zcount` loop of `Encode`). -/
def leadingZeroBytes : List Nat → Nat
  | [] => 0
  | b :: t => if b = 0 then leadingZeroBytes t + 1 else 0

/-- Number of leading `'1'` characters (the `zcount` loop of `Decode`). -/
def leadingOneChars : List Char → Nat
  | [] => 0
  | c :: t => if c = '1' then leadingOneChars t + 1 else 0

/-- Character-by-character base58 digit decoding; any invalid character
fails the whole decode, as in `mr-tron/base58`. -/
def decodeChars : List Char → Option (List Nat)
  | [] => some []
  | c :: t =>
    match b58Index c, decodeChars t with
    | some d, some ds => some (d :: ds)
    | _, _ => none

/-- Model of `base58.Encode` from mr-tron/base58. -/
def base58Encode (l : List Nat) : List Char :=
  List.replicate (leadingZeroBytes l) '1' ++
    ((natDigits 58 (bytesToNat l)).reverse.map fun d => b58Alphabet.getD d ' ')

/-- Model of `base58.Decode` from mr-tron/base58: errors on the empty
string and on any character outside the alphabet. -/
def base58Decode (s : List Char) : Option (List Nat) :=
  match s with
  | [] => none
  | _ :: _ =>
    match decodeChars s with
    | none => none
    | some ds =>
      some (List.replicate (leadingOneChars s) 0 ++
        (natDigits 256 (Nat.ofDigits 58 ds.reverse)).reverse)

theorem b58Index_alphabet (d : Nat) (hd : d < 58) :
    b58Index (b58Alphabet.getD d ' ') = some d := by
  revert d
  decide

theorem b58Alphabet_one_iff (d : Nat) (hd : d < 58) :
    b58Alphabet.getD d ' ' = '1' ↔ d = 0 := by
  revert d
  decide

theorem decodeChars_map (ds : List Nat) (h : ∀ d ∈ ds, d < 58) :
    decodeChars (ds.map fun d => b58Alphabet.getD d ' ') = some ds := by
  induction ds with
  | nil => rfl
  | cons d t ih =>
    have hd : d < 58 := h d (List.mem_cons_self d t)
    have ht := ih fun x hx => h x (List.mem_cons_of_mem d hx)
    simp only [List.map_cons, decodeChars, b58Index_alphabet d hd, ht]

theorem getLast_append_single (L : List Nat) (a : Nat) (hne : L ++ [a] ≠ []) :
    (L ++ [a]).getLast hne = a := by
  induction L with
  | nil => rfl
  | cons x xs ih =>
    exact (List.getLast_cons (by simp)).trans (ih _)

theorem concat_last_ne_zero (l L : List Nat) (a : Nat)
    (hl : l = L ++ [a]) (hg : ∀ hne : l ≠ [], l.getLast hne ≠ 0) : a ≠ 0 := by
  subst hl
  have h1 := hg (by simp)
  rwa [getLast_append_single L a] at h1

theorem getLast_ne_zero_of_concat (l L : List Nat) (a : Nat) (ha : a ≠ 0)
    (hl : l = L ++ [a]) : ∀ hne : l ≠ [], l.getLast hne ≠ 0 := by
  subst hl
  intro hne
  rw [getLast_append_single L a]
  exact ha

/-- Round trip of the mr-tron base58 codec on any byte string whose first
byte is nonzero (the DID payload always starts with the byte 0xed). -/
theorem base58_round_trip (h0 : Nat) (t : List Nat) (hh : h0 ≠ 0)
    (hb : ∀ b ∈ h0 :: t, b < 256) :
    base58Decode (base58Encode (h0 :: t)) = some (h0 :: t) := by
  have hne : bytesToNat (h0 :: t) ≠ 0 := by
    have h1 : (h0 :: t).reverse = t.reverse ++ [h0] := by simp
    rw [bytesToNat, h1, Nat.ofDigits_append, Nat.ofDigits_singleton]
    have h2 : 0 < 256 ^ t.reverse.length * h0 :=
      Nat.mul_pos (pow_pos (by norm_num) _) (Nat.pos_of_ne_zero hh)
    omega
  obtain ⟨L, a, hLa⟩ : ∃ L a, Nat.digits 58 (bytesToNat (h0 :: t)) = L ++ [a] := by
    rcases (Nat.digits 58 (bytesToNat (h0 :: t))).eq_nil_or_concat' with h1 | h1
    · exact absurd h1 (Nat.digits_ne_nil_iff_ne_zero.mpr hne)
    · exact h1
  have hmem : ∀ d ∈ Nat.digits 58 (bytesToNat (h0 :: t)), d < 58 :=
    fun d hd => Nat.digits_lt_base (by norm_num) hd
  have ha58 : a < 58 := hmem a (by rw [hLa]; simp)
  have ha0 : a ≠ 0 :=
    concat_last_ne_zero _ L a hLa (fun _ => Nat.getLast_digit_ne_zero 58 hne)
  have henc : base58Encode (h0 :: t) =
      (b58Alphabet.getD a ' ') :: (L.reverse.map fun d => b58Alphabet.getD d ' ') := by
    rw [base58Encode]
    have hz : leadingZeroBytes (h0 :: t) = 0 := by simp [leadingZeroBytes, hh]
    rw [hz, natDigits_eq_digits _ _ (by norm_num), hLa]
    simp
  have hbound : ∀ d ∈ a :: L.reverse, d < 58 := by
    intro d hd
    apply hmem
    rw [hLa]
    rcases List.mem_cons.mp hd with h1 | h1
    · subst h1; simp
    · exact List.mem_append.mpr (Or.inl (List.mem_reverse.mp h1))
  have hdc : decodeChars ((b58Alphabet.getD a ' ') ::
      (L.reverse.map fun d => b58Alphabet.getD d ' ')) = some (a :: L.reverse) := by
    have h1 := decodeChars_map (a :: L.reverse) hbound
    simpa using h1
  have hne1 : b58Alphabet.getD a ' ' ≠ '1' :=
    fun hc => ha0 ((b58Alphabet_one_iff a ha58).mp hc)
  have hval : Nat.ofDigits 58 (a :: L.reverse).reverse = bytesToNat (h0 :: t) := by
    have h1 : (a :: L.reverse).reverse = L ++ [a] := by simp
    rw [h1, ← hLa, Nat.ofDigits_digits]
  have hbytes : natDigits 256 (bytesToNat (h0 :: t)) = (h0 :: t).reverse := by
    rw [natDigits_eq_digits _ _ (by norm_num), bytesToNat,
      Nat.digits_ofDigits 256 (by norm_num) _
        (fun x hx => hb x (List.mem_reverse.mp hx))
        (getLast_ne_zero_of_concat _ t.reverse h0 hh (by simp))]
  rw [henc]
  simp only [base58Decode, hdc, leadingOneChars, if_neg hne1, hval, hbytes]
  simp

/-! ## DID codec (src/libp2p_utils.go: ToSightDID, DIDToPublicKey)

Strings are embedded as `List Char`; byte slices as `List Nat`. -/

/-- The DID scheme literal prepended by `ToSightDID` and required by
`DIDToPublicKey` (`strings.HasPrefix`). -/
def didScheme : List Char := "did:sight:hoster:".toList

/-- Model of `ToSightDID`: prepend the multicodec bytes 0xed 0x01 to the
public key, base58-encode, prepend the scheme literal. -/
def ToSightDID (publicKey : List Nat) : List Char :=
  didScheme ++ base58Encode (237 :: 1 :: publicKey)

/-- Model of `DIDToPublicKey`: require the scheme literal, base58-decode
the remainder, require exactly 34 bytes starting 0xed 0x01, return the
trailing 32 bytes. -/
def DIDToPublicKey (did : List Char) : Option (List Nat) :=
  if did.take didScheme.length = didScheme then
    match base58Decode (did.drop didScheme.length) with
    | none => none
    | some decoded =>
      if decoded.length = 34 ∧ decoded.getD 0 0 = 237 ∧ decoded.getD 1 0 = 1 then
        some (decoded.drop 2)
      else none
  else none

/-- C1: DID round-trip law — for every 32-byte Ed25519 public key `k`
(each byte below 256), `DIDToPublicKey (ToSightDID k)` succeeds and
returns exactly `k`: encoding prepends 0xed 0x01, base58-encodes, and
prefixes the scheme literal, and decoding inverts this exactly. -/
theorem C1_did_round_trip (k : List Nat) (hlen : k.length = 32)
    (hby : ∀ b ∈ k, b < 256) :
    DIDToPublicKey (ToSightDID k) = some k := by
  have hrt : base58Decode (base58Encode (237 :: 1 :: k)) = some (237 :: 1 :: k) := by
    apply base58_round_trip 237 (1 :: k) (by norm_num)
    intro b hbm
    rcases List.mem_cons.mp hbm with h1 | h1
    · omega
    · rcases List.mem_cons.mp h1 with h2 | h2
      · omega
      · exact hby b h2
  rw [DIDToPublicKey, ToSightDID]
  rw [if_pos (by rw [List.take_left])]
  rw [List.drop_left, hrt]
  have hc : (237 :: 1 :: k).length = 34 ∧ (237 :: 1 :: k).getD 0 0 = 237 ∧
      (237 :: 1 :: k).getD 1 0 = 1 := ⟨by simp [hlen], rfl, rfl⟩
  simp [hc]

/-- C1 witness: the round trip evaluated at the all-zero 32-byte key. -/
theorem C1_did_round_trip_witness :
    (List.replicate 32 0).length = 32 ∧
    DIDToPublicKey (ToSightDID (List.replicate 32 0)) = some (List.replicate 32 0) :=
  ⟨by decide, C1_did_round_trip (List.replicate 32 0) (by decide) (by decide)⟩

/-- C5: DID rejection — `DIDToPublicKey` returns an error (`none`) for
every string that does not begin with the scheme literal, and for every
string whose base58-decoded remainder is not exactly 34 bytes or whose
first two decoded bytes are not 0xed 0x01; it never returns a key in
these cases. -/
theorem C5_did_rejection (s : List Char) :
    (s.take didScheme.length ≠ didScheme → DIDToPublicKey s = none) ∧
    (∀ decoded, base58Decode (s.drop didScheme.length) = some decoded →
      (decoded.length ≠ 34 ∨ decoded.getD 0 0 ≠ 237 ∨ decoded.getD 1 0 ≠ 1) →
      DIDToPublicKey s = none) := by
  constructor
  · intro hns
    rw [DIDToPublicKey, if_neg hns]
  · intro decoded hdec hbad
    rw [DIDToPublicKey]
    by_cases hs : s.take didScheme.length = didScheme
    · rw [if_pos hs, hdec]
      have hcond : ¬ (decoded.length = 34 ∧ decoded.getD 0 0 = 237 ∧
          decoded.getD 1 0 = 1) := by tauto
      exact if_neg hcond
    · rw [if_neg hs]

/-- C5 witness: rejection evaluated at a string without the scheme, and
at a schemed string whose remainder decodes to a single byte. -/
theorem C5_did_rejection_witness :
    DIDToPublicKey ['x'] = none ∧
    DIDToPublicKey (didScheme ++ ['2']) = none :=
  ⟨(C5_did_rejection ['x']).1 (by decide),
   (C5_did_rejection (didScheme ++ ['2'])).2 [1] (by decide) (by decide)⟩

/-! ## JSON values and the message router (src/node_service.go)

`JVal` models the Go `interface:` values produced by `json.Unmarshal`.
An inbound wire message is embedded as `Option JVal`: `none` is a byte
string that is not valid JSON, `some v` is the parsed JSON value `v`.
`decodeIntoMap` models decoding a JSON value into a Go
`map[string]interface` target: it succeeds exactly on JSON objects and
on JSON `null` (which leaves the map nil); every other JSON value makes
`json.Unmarshal`/`Decode` return an error. Objects here stand for the
decoded Go map, so field keys are unique. -/

inductive JVal where
  | null
  | bool (b : Bool)
  | num (n : Int)
  | str (s : String)
  | arr (xs : List JVal)
  | obj (fields : List (String × JVal))

/-- First value bound to `key` in a decoded-object field list. -/
def lookupField : List (String × JVal) → String → Option JVal
  | [], _ => none
  | (k, v) :: t, key => if k = key then some v else lookupField t key

/-- Model of decoding a JSON value into `map[string]interface`:
objects and `null` succeed, everything else errors. -/
def decodeIntoMap : JVal → Option JVal
  | JVal.obj fields => some (JVal.obj fields)
  | JVal.null => some JVal.null
  | _ => none

/-- Indexing the decoded map (`payload["to"]`): a nil map gives nil. -/
def jmapLookup : JVal → String → Option JVal
  | JVal.obj fields, key => lookupField fields key
  | _, _ => none

/-- Go comparison `payload["to"] != s.did` negated: an `interface` value
equals the string `did` exactly when it is a string with those contents
(a missing key is Go `nil`, never equal to a string). -/
def jvalEqStr : Option JVal → String → Bool
  | some (JVal.str t), did => t = did
  | _, _ => false

/-- What one iteration of `handleIncomingMessages` does with one pubsub
message. -/
inductive BroadcastAction where
  | skipInvalid
  | skipNotForMe
  | forwardPost (body : JVal)

/-- Returns `true` exactly when the action issues the HTTP POST to the
sink. -/
def BroadcastAction.forwards : BroadcastAction → Bool
  | BroadcastAction.forwardPost _ => true
  | _ => false

/-- Model of one iteration of `handleIncomingMessages`: unmarshal the
message into a map (failure → log and continue), drop it unless its
`to` field equals this node's identity string, otherwise POST the
marshalled `payload` field to the tunnel API. `json.Marshal` of a value
produced by `json.Unmarshal` cannot fail, so the marshal-error branch of
the Go code is dead and not modelled. A missing `payload` key is Go
`nil` and marshals as JSON `null`. -/
def broadcastStep (did : String) (msg : Option JVal) : BroadcastAction :=
  match msg with
  | none => BroadcastAction.skipInvalid
  | some v =>
    match decodeIntoMap v with
    | none => BroadcastAction.skipInvalid
    | some m =>
      if jvalEqStr (jmapLookup m "to") did then
        BroadcastAction.forwardPost ((jmapLookup m "payload").getD JVal.null)
      else
        BroadcastAction.skipNotForMe

/-- What `handleDirectIncomingMessage` does with one fully read stream. -/
inductive DirectAction where
  | abortInvalid
  | forwardPost (body : JVal)

/-- Model of `handleDirectIncomingMessage` on one stream's bytes:
unmarshal into a map (failure → log and abort this stream only), then
POST the marshalled `payload` field to the tunnel API with no recipient
check (the `to` comparison is commented out in the source). -/
def directStep (msg : Option JVal) : DirectAction :=
  match msg with
  | none => DirectAction.abortInvalid
  | some v =>
    match decodeIntoMap v with
    | none => DirectAction.abortInvalid
    | some m => DirectAction.forwardPost ((jmapLookup m "payload").getD JVal.null)

/-- C3: broadcast recipient filtering — for every message on the
broadcast topic that parses as a JSON object, if its `to` field does not
equal this node's identity string (in the Go `interface` sense: missing,
non-string, or a different string) the payload is never forwarded to the
sink and no error is raised (the loop continues); if `to` equals the
identity, exactly one HTTP POST forwarding attempt of the `payload`
field is made. -/
theorem C3_broadcast_filtering (did : String) (fields : List (String × JVal)) :
    (jvalEqStr (lookupField fields "to") did = false →
      broadcastStep did (some (JVal.obj fields)) = BroadcastAction.skipNotForMe) ∧
    (lookupField fields "to" = some (JVal.str did) →
      broadcastStep did (some (JVal.obj fields)) =
        BroadcastAction.forwardPost ((lookupField fields "payload").getD JVal.null)) := by
  constructor
  · intro hne
    simp [broadcastStep, decodeIntoMap, jmapLookup, hne]
  · intro heq
    simp [broadcastStep, decodeIntoMap, jmapLookup, heq, jvalEqStr]

/-- C3 witness: one mismatched envelope is skipped, one matching
envelope is forwarded with its payload. -/
theorem C3_broadcast_filtering_witness :
    broadcastStep "d" (some (JVal.obj [("to", JVal.str "e")])) =
      BroadcastAction.skipNotForMe ∧
    broadcastStep "d" (some (JVal.obj [("to", JVal.str "d"), ("payload", JVal.str "p")])) =
      BroadcastAction.forwardPost (JVal.str "p") :=
  ⟨(C3_broadcast_filtering "d" [("to", JVal.str "e")]).1 (by rfl),
   (C3_broadcast_filtering "d" [("to", JVal.str "d"), ("payload", JVal.str "p")]).2 (by rfl)⟩

/-- C4: direct-stream unconditional forwarding — every stream on the
direct protocol that parses as a JSON object has its `payload` field
forwarded by exactly one HTTP POST, whatever its `to` field holds or
whether it is present at all, and a parse failure aborts only that
stream (no POST). -/
theorem C4_direct_unconditional (fields : List (String × JVal)) :
    directStep (some (JVal.obj fields)) =
      DirectAction.forwardPost ((lookupField fields "payload").getD JVal.null) ∧
    directStep none = DirectAction.abortInvalid := by
  constructor
  · simp [directStep, decodeIntoMap, jmapLookup]
  · rfl

/-! ## HTTP controller (src/controller.go: SendHandler) and outbound
publish (src/node_service.go: HandleOutgoingMessage) -/

/-- The two responses `SendHandler` can produce. -/
inductive SendResp where
  | okStatus
  | invalidJson

/-- HTTP status code of each response: 200 with body status ok on
success, 400 Invalid JSON on a decode error. -/
def SendResp.code : SendResp → Nat
  | SendResp.okStatus => 200
  | SendResp.invalidJson => 400

/-- Model of `HandleOutgoingMessage`: marshal the message (total for
values built from decoded JSON) and publish it to the topic; a publish
failure is only logged, so the attempt list is the same either way. -/
def HandleOutgoingMessage (_publishOk : Bool) (msg : JVal) : List JVal := [msg]

/-- The envelope `SendHandler` builds: the whole decoded body nested as
`payload`, with `to` copied from the body (Go nil, i.e. JSON null, when
absent). -/
def sendEnvelope (body : JVal) : JVal :=
  JVal.obj [("to", (jmapLookup body "to").getD JVal.null), ("payload", body)]

/-- Model of `SendHandler`: decode the request body into a map (invalid
JSON, or a JSON value that is not an object and not null, gives 400
Invalid JSON and nothing is published); otherwise publish the envelope
via `HandleOutgoingMessage` and answer 200 regardless of the publish
outcome. Returns the response and the list of publish attempts. -/
def SendHandler (publishOk : Bool) (body : Option JVal) : SendResp × List JVal :=
  match body with
  | none => (SendResp.invalidJson, [])
  | some v =>
    match decodeIntoMap v with
    | none => (SendResp.invalidJson, [])
    | some m => (SendResp.okStatus, HandleOutgoingMessage publishOk (sendEnvelope m))

/-- C7 counterexample: the request body `5` is valid JSON, so the claim
as stated predicts a 200 response and one publish, but
`json.NewDecoder(...).Decode` into `map[string]interface` fails on a
JSON number, so the handler answers 400 and publishes nothing. -/
theorem C7_counterexample :
    (SendHandler true (some (JVal.num 5))).1.code = 400 ∧
    (SendHandler true (some (JVal.num 5))).2 = [] :=
  ⟨rfl, rfl⟩

/-- C7 (amended): for every request body that decodes into the Go map —
a JSON object, or JSON null — the handler publishes the envelope
`to` := body `to`, `payload` := whole body, and responds 200 with the
ok status, including when the publish to the broadcast topic fails (the
failure is not surfaced to the caller); for a body that is invalid JSON
or any other JSON value it responds 400 and publishes nothing. -/
theorem C7_send_handler (publishOk : Bool) (body : Option JVal) :
    (∀ v m, body = some v → decodeIntoMap v = some m →
      SendHandler publishOk body = (SendResp.okStatus, [sendEnvelope m])) ∧
    (body = none → SendHandler publishOk body = (SendResp.invalidJson, [])) ∧
    (∀ v, body = some v → decodeIntoMap v = none →
      SendHandler publishOk body = (SendResp.invalidJson, [])) ∧
    SendHandler true body = SendHandler false body := by
  refine ⟨?_, ?_, ?_, ?_⟩
  · intro v m hb hd
    subst hb
    simp [SendHandler, hd, HandleOutgoingMessage]
  · intro hb
    subst hb
    rfl
  · intro v hb hd
    subst hb
    simp [SendHandler, hd]
  · cases body with
    | none => rfl
    | some v =>
      cases v <;> rfl

/-- C7 witness: a JSON-object body is published as an envelope and gets
the ok response; an invalid-JSON body gets 400 and publishes nothing. -/
theorem C7_send_handler_witness :
    SendHandler true (some (JVal.obj [("to", JVal.str "x")])) =
      (SendResp.okStatus, [sendEnvelope (JVal.obj [("to", JVal.str "x")])]) ∧
    SendHandler true none = (SendResp.invalidJson, []) :=
  ⟨(C7_send_handler true (some (JVal.obj [("to", JVal.str "x")]))).1
      (JVal.obj [("to", JVal.str "x")]) (JVal.obj [("to", JVal.str "x")]) rfl rfl,
   (C7_send_handler true none).2.1 rfl⟩

/-! ## Keypair store (src/libp2p_utils.go: LoadOrGenerateKeypair, load
branch) and service construction (src/node_service.go:
NewLibp2pNodeService)

`ed25519.NewKeyFromSeed` and `privKey.Public()` are external library
functions (golang.org/x/crypto/ed25519); they are pure functions of
their argument and are abstracted as function parameters `nks` (seed →
private key) and `pub` (private key → public key). The claims quantify
over them, so the theorems hold for the actual derivation. -/

structure Keypair where
  Seed : List Nat
  CreatedAt : String
  LastUsed : String
  PublicKey : List Nat
  PrivateKey : List Nat
deriving DecidableEq

/-- The parsed contents of `device-keypair.json`: `seed` as a decimal
integer array, plus the two stored timestamps. -/
structure StoredKeyFile where
  seed : List Int
  createdAt : String
  lastUsed : String
deriving DecidableEq

/-- Go `byte(v)` on an `int`: the low 8 bits. -/
def intToByte (v : Int) : Nat := (v % 256).toNat

/-- Model of the load branch of `LoadOrGenerateKeypair`: convert the
stored decimal array to bytes, re-derive the keypair from the seed, and
keep the stored timestamps. -/
def loadKeypairFromFile (nks pub : List Nat → List Nat)
    (f : StoredKeyFile) : Keypair :=
  let seed := f.seed.map intToByte
  let priv := nks seed
  { Seed := seed
    CreatedAt := f.createdAt
    LastUsed := f.lastUsed
    PublicKey := pub priv
    PrivateKey := priv }

/-- C6: keypair determinism — loading the same persisted key file twice
yields byte-identical keypairs; the derived public and private keys are
functions of the stored seed array alone (two files agreeing on `seed`
give identical key bytes even with different timestamps); and the
stored createdAt/lastUsed timestamps are preserved unchanged on load. -/
theorem C6_keypair_determinism (nks pub : List Nat → List Nat)
    (f g : StoredKeyFile) :
    loadKeypairFromFile nks pub f = loadKeypairFromFile nks pub f ∧
    (f.seed = g.seed →
      (loadKeypairFromFile nks pub f).PublicKey =
        (loadKeypairFromFile nks pub g).PublicKey ∧
      (loadKeypairFromFile nks pub f).PrivateKey =
        (loadKeypairFromFile nks pub g).PrivateKey) ∧
    (loadKeypairFromFile nks pub f).CreatedAt = f.createdAt ∧
    (loadKeypairFromFile nks pub f).LastUsed = f.lastUsed := by
  refine ⟨rfl, ?_, rfl, rfl⟩
  intro hseed
  constructor <;> simp [loadKeypairFromFile, hseed]

/-- C6 witness: two stored files with the same seed but different
timestamps load to the same key bytes, and timestamps are kept. -/
theorem C6_keypair_determinism_witness :
    (⟨[1, 2], "a", "b"⟩ : StoredKeyFile).seed = (⟨[1, 2], "c", "d"⟩ : StoredKeyFile).seed ∧
    (loadKeypairFromFile id id ⟨[1, 2], "a", "b"⟩).PublicKey =
      (loadKeypairFromFile id id ⟨[1, 2], "c", "d"⟩).PublicKey ∧
    (loadKeypairFromFile id id ⟨[1, 2], "a", "b"⟩).CreatedAt = "a" :=
  ⟨rfl,
   ((C6_keypair_determinism id id ⟨[1, 2], "a", "b"⟩ ⟨[1, 2], "c", "d"⟩).2.1 rfl).1,
   (C6_keypair_determinism id id ⟨[1, 2], "a", "b"⟩ ⟨[1, 2], "c", "d"⟩).2.2.1⟩

/-! ## Service construction (src/node_service.go: NewLibp2pNodeService) -/

/-- The fixed seed the constructor substitutes for gateways: first byte
32, the remaining 31 bytes zero. -/
def gatewaySeed : List Nat := 32 :: List.replicate 31 0

/-- The fields of `Libp2pNodeService` fixed at construction. -/
structure ServiceCfg where
  did : String
  keypair : Keypair
  tunnelAPI : String
  isGateway : Bool
  nodePort : Nat
  bootstrap : List String

/-- Model of `NewLibp2pNodeService`: a gateway gets the literal identity
string and a hard-coded keypair freshly derived from `gatewaySeed`
(with empty seed and timestamp fields, as in the Go struct literal); a
non-gateway keeps the caller's keypair and derives its DID from the
caller's public key. -/
def NewLibp2pNodeService (nks pub : List Nat → List Nat) (kp : Keypair)
    (port : Nat) (tunnelAPI : String) (isGateway : Bool)
    (bootstrap : List String) : ServiceCfg :=
  let did := if isGateway then "gateway" else String.mk (ToSightDID kp.PublicKey)
  let kp2 := if isGateway then
      { Seed := [], CreatedAt := "", LastUsed := "",
        PublicKey := pub (nks gatewaySeed), PrivateKey := nks gatewaySeed }
    else kp
  { did := did, keypair := kp2, tunnelAPI := tunnelAPI,
    isGateway := isGateway, nodePort := port, bootstrap := bootstrap }

/-- C10: gateway identity override — constructed with isGateway true,
the service discards the caller's keypair and substitutes the fixed
keypair derived from the constant seed 32 :: 31 zero bytes, sets its
identity to the literal string gateway (so any two gateway instances
agree on key material and identity whatever keypairs they were given),
and its broadcast recipient check forwards exactly the envelopes whose
`to` field is the JSON string gateway. -/
theorem C10_gateway_override (nks pub : List Nat → List Nat)
    (kp kp2 : Keypair) (port port2 : Nat) (api api2 : String)
    (bs bs2 : List String) :
    (NewLibp2pNodeService nks pub kp port api true bs).did = "gateway" ∧
    (NewLibp2pNodeService nks pub kp port api true bs).keypair =
      { Seed := [], CreatedAt := "", LastUsed := "",
        PublicKey := pub (nks gatewaySeed), PrivateKey := nks gatewaySeed } ∧
    (NewLibp2pNodeService nks pub kp port api true bs).keypair =
      (NewLibp2pNodeService nks pub kp2 port2 api2 true bs2).keypair ∧
    (NewLibp2pNodeService nks pub kp2 port2 api2 true bs2).did =
      (NewLibp2pNodeService nks pub kp port api true bs).did ∧
    (∀ fields : List (String × JVal),
      (broadcastStep (NewLibp2pNodeService nks pub kp port api true bs).did
          (some (JVal.obj fields))).forwards =
        jvalEqStr (lookupField fields "to") "gateway") := by
  refine ⟨rfl, rfl, rfl, rfl, ?_⟩
  intro fields
  by_cases h : jvalEqStr (lookupField fields "to") "gateway" = true
  · simp [NewLibp2pNodeService, broadcastStep, decodeIntoMap, jmapLookup, h,
      BroadcastAction.forwards]
  · simp only [Bool.not_eq_true] at h
    simp [NewLibp2pNodeService, broadcastStep, decodeIntoMap, jmapLookup, h,
      BroadcastAction.forwards]

/-! ## Public-key resolver (src/node_service.go: GetPublicKeyByPeerId)

The external collaborators are fixed by a `ResolverEnv` for the one
peer-id string under consideration: `decodePk` is the outcome of
`DecodePublicKeyFromPeerId` (`some` exactly when it returns a non-nil
key with nil error, i.e. the reference self-describes its key through an
identity-tagged multihash); `peerDecode` is the outcome of
`peer.Decode`; `storeBefore`/`storeAfter` are the peerstore contents
(`PubKey(pid).Raw()`) before and after connecting; `dhtFind` is
`dht.FindPeer`; `connect` is whether `node.Connect` succeeds. -/

abbrev PeerId := Nat
abbrev AddrInfo := Nat

structure ResolverEnv where
  decodePk : Option (List Nat)
  peerDecode : Option PeerId
  storeBefore : PeerId → Option (List Nat)
  dhtFind : PeerId → Option AddrInfo
  connect : AddrInfo → Bool
  storeAfter : PeerId → Option (List Nat)

/-- Errors `GetPublicKeyByPeerId` can return; `noPublicKeyFound` is the
literal error string no public key found built after a successful
connect. -/
inductive PKErr where
  | peerDecodeFailed
  | dhtFailed
  | connectFailed
  | noPublicKeyFound
deriving DecidableEq

/-- Which external effects a run of `GetPublicKeyByPeerId` performed. -/
structure ResolverTrace where
  storeReads : Nat
  dhtQueried : Bool
  connectTried : Bool
deriving DecidableEq

/-- Model of `GetPublicKeyByPeerId`: self-describing decode first, then
the local peerstore, then DHT lookup plus connect plus a peerstore
re-check. -/
def GetPublicKeyByPeerId (env : ResolverEnv) :
    Except PKErr (List Nat) × ResolverTrace :=
  match env.decodePk with
  | some pk => (Except.ok pk, ⟨0, false, false⟩)
  | none =>
    match env.peerDecode with
    | none => (Except.error PKErr.peerDecodeFailed, ⟨0, false, false⟩)
    | some pid =>
      match env.storeBefore pid with
      | some pub => (Except.ok pub, ⟨1, false, false⟩)
      | none =>
        match env.dhtFind pid with
        | none => (Except.error PKErr.dhtFailed, ⟨1, true, false⟩)
        | some ai =>
          if env.connect ai then
            match env.storeAfter pid with
            | some pub => (Except.ok pub, ⟨2, true, true⟩)
            | none => (Except.error PKErr.noPublicKeyFound, ⟨2, true, true⟩)
          else (Except.error PKErr.connectFailed, ⟨1, true, true⟩)

/-- C2: resolver fallback short-circuit — if the peer reference
self-describes its public key, that key is returned with no peerstore
read, no DHT query and no connect; if the self-describing decode fails
but the peerstore already holds a key for the decoded peer id, that key
is returned with no DHT query and no connect; otherwise the DHT is
queried, a connection is attempted when the DHT answers, the peerstore
is re-checked after a successful connect, and the run fails with the
no-public-key-found error exactly when the key is still absent then. -/
theorem C2_resolver_fallback (env : ResolverEnv) :
    (∀ pk, env.decodePk = some pk →
      GetPublicKeyByPeerId env = (Except.ok pk, ⟨0, false, false⟩)) ∧
    (∀ pid k, env.decodePk = none → env.peerDecode = some pid →
      env.storeBefore pid = some k →
      GetPublicKeyByPeerId env = (Except.ok k, ⟨1, false, false⟩)) ∧
    (∀ pid, env.decodePk = none → env.peerDecode = some pid →
      env.storeBefore pid = none →
      (GetPublicKeyByPeerId env).2.dhtQueried = true ∧
      (∀ ai, env.dhtFind pid = some ai →
        (GetPublicKeyByPeerId env).2.connectTried = true ∧
        (env.connect ai = true →
          ((GetPublicKeyByPeerId env).1 = Except.error PKErr.noPublicKeyFound ↔
            env.storeAfter pid = none) ∧
          (∀ k, env.storeAfter pid = some k →
            (GetPublicKeyByPeerId env).1 = Except.ok k)))) := by
  refine ⟨?_, ?_, ?_⟩
  · intro pk h1
    simp [GetPublicKeyByPeerId, h1]
  · intro pid k h1 h2 h3
    simp [GetPublicKeyByPeerId, h1, h2, h3]
  · intro pid h1 h2 h3
    constructor
    · cases h4 : env.dhtFind pid with
      | none => simp [GetPublicKeyByPeerId, h1, h2, h3, h4]
      | some ai =>
        cases h5 : env.connect ai with
        | false => simp [GetPublicKeyByPeerId, h1, h2, h3, h4, h5]
        | true =>
          cases h6 : env.storeAfter pid with
          | none => simp [GetPublicKeyByPeerId, h1, h2, h3, h4, h5, h6]
          | some k => simp [GetPublicKeyByPeerId, h1, h2, h3, h4, h5, h6]
    · intro ai h4
      constructor
      · cases h5 : env.connect ai with
        | false => simp [GetPublicKeyByPeerId, h1, h2, h3, h4, h5]
        | true =>
          cases h6 : env.storeAfter pid with
          | none => simp [GetPublicKeyByPeerId, h1, h2, h3, h4, h5, h6]
          | some k => simp [GetPublicKeyByPeerId, h1, h2, h3, h4, h5, h6]
      · intro h5
        constructor
        · cases h6 : env.storeAfter pid with
          | none => simp [GetPublicKeyByPeerId, h1, h2, h3, h4, h5, h6]
          | some k => simp [GetPublicKeyByPeerId, h1, h2, h3, h4, h5, h6]
        · intro k h6
          simp [GetPublicKeyByPeerId, h1, h2, h3, h4, h5, h6]

/-- C2 witness: with a self-describing reference the key is returned
with an empty trace, and in the fallthrough case with an empty peerstore
after a successful connect the run fails with the no-key error. -/
theorem C2_resolver_fallback_witness :
    GetPublicKeyByPeerId
        ⟨some [9], none, fun _ => none, fun _ => none, fun _ => false, fun _ => none⟩ =
      (Except.ok [9], ⟨0, false, false⟩) ∧
    (GetPublicKeyByPeerId
        ⟨none, some 0, fun _ => none, fun _ => some 5, fun _ => true, fun _ => none⟩).1 =
      Except.error PKErr.noPublicKeyFound :=
  ⟨(C2_resolver_fallback
      ⟨some [9], none, fun _ => none, fun _ => none, fun _ => false, fun _ => none⟩).1
      [9] rfl,
   ((((C2_resolver_fallback
      ⟨none, some 0, fun _ => none, fun _ => some 5, fun _ => true, fun _ => none⟩).2.2
      0 rfl rfl rfl).2 5 rfl).2 rfl).1.mpr rfl⟩

/-! ## Connect dispatch (src/node_service.go: ConnectByDIDOrMultiAddr)

A `ConnectEnv` fixes the external outcomes for the one input string:
`parseMultiaddr` is `ma.NewMultiaddr` on the input, `addrInfoFromP2p` is
`peer.AddrInfoFromP2pAddr`, `pidOf` is `PublicKeyToPeerId` (which cannot
fail on the 32-byte keys produced by `DIDToPublicKey`, but its error
branch is kept), `dhtFind` is `dht.FindPeer` and `connect` is
`node.Connect`. `DIDToPublicKey` is the concrete model above. -/

abbrev Multiaddr := Nat

structure ConnectEnv where
  parseMultiaddr : Option Multiaddr
  addrInfoFromP2p : Multiaddr → Option AddrInfo
  pidOf : List Nat → Option PeerId
  dhtFind : PeerId → Option AddrInfo
  connect : AddrInfo → Bool

inductive CErr where
  | badMultiaddr
  | badP2pAddr
  | invalidDID
  | badKey
  | peerNotFound
  | connectFailed
deriving DecidableEq

/-- Which network activity a run of `ConnectByDIDOrMultiAddr`
performed. -/
structure ConnectTrace where
  dhtQueried : Bool
  connectTried : Bool
deriving DecidableEq

/-- Model of `ConnectByDIDOrMultiAddr`: an input starting with the path
separator is parsed as a multiaddress and connected to directly;
anything else is decoded as a DID, the peer id is derived from the
decoded key, the DHT is asked for its addresses, and the node connects
to the result. -/
def ConnectByDIDOrMultiAddr (env : ConnectEnv) (did : List Char) :
    Except CErr Unit × ConnectTrace :=
  if did.take 1 = ['/'] then
    match env.parseMultiaddr with
    | none => (Except.error CErr.badMultiaddr, ⟨false, false⟩)
    | some m =>
      match env.addrInfoFromP2p m with
      | none => (Except.error CErr.badP2pAddr, ⟨false, false⟩)
      | some ai =>
        ((if env.connect ai then Except.ok () else Except.error CErr.connectFailed),
          ⟨false, true⟩)
  else
    match DIDToPublicKey did with
    | none => (Except.error CErr.invalidDID, ⟨false, false⟩)
    | some pk =>
      match env.pidOf pk with
      | none => (Except.error CErr.badKey, ⟨false, false⟩)
      | some pid =>
        match env.dhtFind pid with
        | none => (Except.error CErr.peerNotFound, ⟨true, false⟩)
        | some ai =>
          ((if env.connect ai then Except.ok () else Except.error CErr.connectFailed),
            ⟨true, true⟩)

/-- C9: connect-target dispatch — an input starting with the path
separator never touches the DHT: it errors without a connect attempt
exactly when multiaddress parsing fails, and otherwise attempts the
connection directly; any other input is treated as a DID: a malformed
DID errors with no DHT query and no connect attempt, and a well-formed
one has its peer id derived from the decoded key, the DHT queried for
its addresses, and the call fails (without a connect attempt) when the
DHT lookup finds none. -/
theorem C9_connect_dispatch (env : ConnectEnv) (did : List Char) :
    (did.take 1 = ['/'] →
      (ConnectByDIDOrMultiAddr env did).2.dhtQueried = false ∧
      (env.parseMultiaddr = none →
        ConnectByDIDOrMultiAddr env did =
          (Except.error CErr.badMultiaddr, ⟨false, false⟩)) ∧
      (∀ m, env.parseMultiaddr = some m → env.addrInfoFromP2p m = none →
        ConnectByDIDOrMultiAddr env did =
          (Except.error CErr.badP2pAddr, ⟨false, false⟩)) ∧
      (∀ m ai, env.parseMultiaddr = some m → env.addrInfoFromP2p m = some ai →
        ConnectByDIDOrMultiAddr env did =
          ((if env.connect ai then Except.ok () else Except.error CErr.connectFailed),
            ⟨false, true⟩))) ∧
    (did.take 1 ≠ ['/'] →
      (DIDToPublicKey did = none →
        ConnectByDIDOrMultiAddr env did =
          (Except.error CErr.invalidDID, ⟨false, false⟩)) ∧
      (∀ pk pid, DIDToPublicKey did = some pk → env.pidOf pk = some pid →
        (env.dhtFind pid = none →
          ConnectByDIDOrMultiAddr env did =
            (Except.error CErr.peerNotFound, ⟨true, false⟩)) ∧
        (∀ ai, env.dhtFind pid = some ai →
          ConnectByDIDOrMultiAddr env did =
            ((if env.connect ai then Except.ok () else Except.error CErr.connectFailed),
              ⟨true, true⟩)))) := by
  constructor
  · intro hs
    refine ⟨?_, ?_, ?_, ?_⟩
    · cases h1 : env.parseMultiaddr with
      | none => simp [ConnectByDIDOrMultiAddr, hs, h1]
      | some m =>
        cases h2 : env.addrInfoFromP2p m with
        | none => simp [ConnectByDIDOrMultiAddr, hs, h1, h2]
        | some ai => simp [ConnectByDIDOrMultiAddr, hs, h1, h2]
    · intro h1
      simp [ConnectByDIDOrMultiAddr, hs, h1]
    · intro m h1 h2
      simp [ConnectByDIDOrMultiAddr, hs, h1, h2]
    · intro m ai h1 h2
      simp [ConnectByDIDOrMultiAddr, hs, h1, h2]
  · intro hs
    refine ⟨?_, ?_⟩
    · intro h1
      simp [ConnectByDIDOrMultiAddr, hs, h1]
    · intro pk pid h1 h2
      constructor
      · intro h3
        simp [ConnectByDIDOrMultiAddr, hs, h1, h2, h3]
      · intro ai h3
        simp [ConnectByDIDOrMultiAddr, hs, h1, h2, h3]

/-- C9 witness: a slash input with an unparseable multiaddress errors
with no network activity, and a non-slash malformed DID errors with no
network activity. -/
theorem C9_connect_dispatch_witness :
    ConnectByDIDOrMultiAddr
        ⟨none, fun _ => none, fun _ => none, fun _ => none, fun _ => false⟩ ['/', 'a'] =
      (Except.error CErr.badMultiaddr, ⟨false, false⟩) ∧
    ConnectByDIDOrMultiAddr
        ⟨none, fun _ => none, fun _ => none, fun _ => none, fun _ => false⟩ ['x'] =
      (Except.error CErr.invalidDID, ⟨false, false⟩) :=
  ⟨((C9_connect_dispatch
      ⟨none, fun _ => none, fun _ => none, fun _ => none, fun _ => false⟩ ['/', 'a']).1
      (by decide)).2.1 rfl,
   ((C9_connect_dispatch
      ⟨none, fun _ => none, fun _ => none, fun _ => none, fun _ => false⟩ ['x']).2
      (by decide)).1 (by decide)⟩

/-! ## Bootstrap mesh builder (src/unnamed/part_000: randomNeighbors)

`randomNeighbors` builds the index list over the global 9-entry `ports`
array minus the excluded index, shuffles it in place with
`rand.Shuffle`, draws `count = 4 + rand.Intn(2)` capped at the list
length, and returns the prefix of that length. The shuffle outcome is
embedded as an argument `shuffled` constrained (in the theorem) to be a
permutation of the unshuffled pool, and the `rand.Intn(2)` draw as an
argument `r < 2`. -/

/-- The fixed listen ports of the 9 bootstrap nodes. -/
def ports : List Nat :=
  [15001, 15002, 15003, 15004, 15005, 15006, 15007, 15008, 15009]

/-- The index pool `randomNeighbors` builds before shuffling: every
index of `ports` except `exclude`, in order. -/
def neighborIndexPool (exclude : Nat) : List Nat :=
  (List.range ports.length).filter (fun i => i ≠ exclude)

/-- Model of the tail of `randomNeighbors` after the shuffle: take a
prefix of length `4 + r`, capped at the pool size. -/
def randomNeighbors (shuffled : List Nat) (r : Nat) : List Nat :=
  let count := 4 + r
  let count2 := if count > shuffled.length then shuffled.length else count
  shuffled.take count2

/-- C8: mesh degree — for the fixed 9-node bootstrap cluster, whatever
permutation the shuffle produces and whichever of the two counts is
drawn, `randomNeighbors` returns 4 or 5 indices, pairwise distinct, none
equal to the excluded index, and all below 9. -/
theorem C8_mesh_degree (exclude : Nat) (shuffled : List Nat) (r : Nat)
    (hex : exclude < 9) (hperm : shuffled.Perm (neighborIndexPool exclude))
    (hr : r < 2) :
    ((randomNeighbors shuffled r).length = 4 ∨
      (randomNeighbors shuffled r).length = 5) ∧
    (randomNeighbors shuffled r).Nodup ∧
    exclude ∉ randomNeighbors shuffled r ∧
    (∀ x ∈ randomNeighbors shuffled r, x < 9) := by
  have hpool8 : ∀ e, e < 9 → (neighborIndexPool e).length = 8 := by decide
  have hlen : shuffled.length = 8 := hperm.length_eq.trans (hpool8 exclude hex)
  have hcount : ¬ (4 + r > shuffled.length) := by omega
  have hres : randomNeighbors shuffled r = shuffled.take (4 + r) := by
    rw [randomNeighbors]
    simp only [hcount, if_false]
  have hreslen : (randomNeighbors shuffled r).length = 4 + r := by
    rw [hres, List.length_take]
    omega
  have hsub : ∀ x ∈ randomNeighbors shuffled r, x ∈ neighborIndexPool exclude := by
    intro x hx
    rw [hres] at hx
    exact hperm.mem_iff.mp (List.take_subset _ _ hx)
  refine ⟨by omega, ?_, ?_, ?_⟩
  · rw [hres]
    exact (List.take_sublist _ _).nodup (hperm.nodup_iff.mpr
      ((List.nodup_range _).filter _))
  · intro hmem
    have h1 := hsub exclude hmem
    have h2 := (List.mem_filter.mp h1).2
    simp at h2
  · intro x hx
    have h1 := hsub x hx
    have h2 := (List.mem_filter.mp h1).1
    have h3 := List.mem_range.mp h2
    simpa [ports] using h3

/-- C8 witness: the unshuffled pool for node 0 with the low count draw
yields 4 distinct neighbor indices below 9, none equal to 0. -/
theorem C8_mesh_degree_witness :
    0 < 9 ∧ (0 : Nat) < 2 ∧
    ((randomNeighbors (neighborIndexPool 0) 0).length = 4 ∨
      (randomNeighbors (neighborIndexPool 0) 0).length = 5) ∧
    (randomNeighbors (neighborIndexPool 0) 0).Nodup ∧
    0 ∉ randomNeighbors (neighborIndexPool 0) 0 ∧
    (∀ x ∈ randomNeighbors (neighborIndexPool 0) 0, x < 9) :=
  ⟨by decide, by decide,
    C8_mesh_degree 0 (neighborIndexPool 0) 0 (by decide) (List.Perm.refl _) (by decide)⟩
